import Mathlib

/-!
Shallow embedding of the portfolio calculation engine
(`src/services/calculationService.ts` of the criptofolio repository) and
proofs about it.

Modelling conventions:
* JavaScript `number` is modelled by `ℚ`.  Every operation the embedded
  functions perform is `+ - * /` and comparisons, which are exact on the
  rationals; division by zero yields 0 in `ℚ` where JS would produce
  `NaN`/`Infinity` (this only matters outside the documented input
  contract, and never in the theorems below).
* Transaction dates are the strings stored in the ledger.  `new Date(s)`
  followed by `getTime`/`getFullYear`/`getMonth`/`toISOString` is modelled
  by parsing the canonical `YYYY-MM-DD` form into a civil day number
  (days since 1970-01-01, UTC); any other string behaves as an Invalid
  Date (`NaN` components), i.e. parses to `none`.  The model assumes a
  UTC environment, so `getFullYear`/`getMonth` agree with the UTC date.
* A JavaScript `Map` (and a plain object used as a dictionary) is an
  insertion-ordered association list: lookup finds the first binding,
  `set` overwrites in place or appends a new binding at the end.
* `Array.prototype.sort` is a stable sort by the comparator.  When a date
  is unparseable the comparator returns `NaN` and ECMAScript leaves the
  resulting order implementation-defined; the model totalises the order
  by treating unparseable dates as minimal.  Every theorem about sorted
  output assumes parseable dates, so this choice is never load-bearing.
* `new Date()` (the current day) is passed explicitly as a `today`
  parameter (a civil day number) to the functions that read the clock.
-/

unseal List.merge List.mergeSort

/- Batteries marks the rational operations `@[irreducible]`; the proofs
below evaluate the embedded programs on concrete inputs by reduction,
so restore the default reducibility for this file. -/
attribute [local semireducible] Rat.add Rat.sub Rat.mul Rat.inv

/-- `type` field of a transaction: `'buy' | 'sell'`. -/
inductive TxType where
  | buy : TxType
  | sell : TxType
deriving DecidableEq

/-- A ledger transaction (`Transaction` in `types.ts`): `value` is the
price per unit, `date` the raw date string. -/
structure Transaction where
  id : Int
  type : TxType
  date : String
  asset : String
  quantity : ℚ
  value : ℚ
deriving DecidableEq

/-- Current price map (`CryptoData`): `cryptoData[symbol]?.price`.
Only the `price` field is read by the embedded functions. -/
def CryptoData : Type := String → Option ℚ

/-- Historical price map, keyed by symbol and civil day number
(the source keys the inner map by canonical `YYYY-MM-DD` strings, which
are in bijection with day numbers). -/
def HistoricalPrices : Type := String → Int → Option ℚ

/-- Numeric value of a digit character. -/
def digitVal (c : Char) : Nat := c.toNat - '0'.toNat

/-- Gregorian leap year test. -/
def isLeapYear (y : Nat) : Bool :=
  (y % 4 == 0 && y % 100 != 0) || (y % 400 == 0)

/-- Number of days in a month of a given year. -/
def daysInMonth (y m : Nat) : Nat :=
  if m = 2 then (if isLeapYear y then 29 else 28)
  else if m = 4 ∨ m = 6 ∨ m = 9 ∨ m = 11 then 30
  else 31

/-- Civil day number (days since 1970-01-01) of a calendar date with
`0 ≤ y ≤ 9999`.  Standard civil-calendar algorithm; the year is shifted
by +400 so that all intermediate arithmetic stays in `Nat` (146097 is
the number of days in a 400-year era, 719468 the day offset of
1970-01-01 from 0000-03-01). -/
def civilDay (y m d : Nat) : Int :=
  let y1 := y + 400
  let y2 := if m ≤ 2 then y1 - 1 else y1
  let era := y2 / 400
  let yoe := y2 - era * 400
  let mp := if m > 2 then m - 3 else m + 9
  let doy := (153 * mp + 2) / 5 + (d - 1)
  let doe := yoe * 365 + yoe / 4 - yoe / 100 + doy
  (era * 146097 + doe : Int) - 146097 - 719468

/-- Parse a canonical `YYYY-MM-DD` string into (year, month, day);
any other string is an Invalid Date and parses to `none`. -/
def parseDateParts (s : String) : Option (Nat × Nat × Nat) :=
  match s.toList with
  | [y1, y2, y3, y4, c1, m1, m2, c2, d1, d2] =>
    if c1 = '-' ∧ c2 = '-' ∧ y1.isDigit ∧ y2.isDigit ∧ y3.isDigit ∧ y4.isDigit ∧
        m1.isDigit ∧ m2.isDigit ∧ d1.isDigit ∧ d2.isDigit then
      let y := ((digitVal y1 * 10 + digitVal y2) * 10 + digitVal y3) * 10 + digitVal y4
      let m := digitVal m1 * 10 + digitVal m2
      let d := digitVal d1 * 10 + digitVal d2
      if 1 ≤ m ∧ m ≤ 12 ∧ 1 ≤ d ∧ d ≤ daysInMonth y m then some (y, m, d) else none
    else none
  | _ => none

/-- `new Date(s).getTime()` reduced to a day number: `some` day for a
parseable date, `none` for `NaN`. -/
def jsDateDay (s : String) : Option Int :=
  (parseDateParts s).map (fun p => civilDay p.1 p.2.1 p.2.2)

/-- The sort comparator `(a, b) => new Date(a.date).getTime() - new
Date(b.date).getTime()` as a boolean `le` relation for a stable sort.
Unparseable dates (comparator value `NaN`, order implementation-defined
in JS) are totalised as minimal. -/
def dateLe (a b : Transaction) : Bool :=
  match jsDateDay a.date, jsDateDay b.date with
  | none, _ => true
  | some _, none => false
  | some x, some y => x ≤ y

/-- `txs.sort((a, b) => dateA - dateB)`: stable ascending sort by date. -/
def sortByDate (txs : List Transaction) : List Transaction :=
  txs.mergeSort dateLe

/-- `map.set(k, v)` on an insertion-ordered association list: overwrite
the existing binding in place, else append. -/
def upsert {β : Type} (k : String) (v : β) : List (String × β) → List (String × β)
  | [] => [(k, v)]
  | (k1, v1) :: rest => if k1 = k then (k, v) :: rest else (k1, v1) :: upsert k v rest

/-- The `1e-8` quantity epsilon used by the clamping code. -/
def qtyEps : ℚ := 1 / 100000000

/-- Per-asset running state of the ledger aggregator. -/
structure PerfState where
  totalQuantity : ℚ
  totalInvested : ℚ
deriving DecidableEq

/-- One transaction step of the `calculateAssetPerformance` fold. -/
def perfStep (m : List (String × PerfState)) (tx : Transaction) : List (String × PerfState) :=
  let a := (m.lookup tx.asset).getD ⟨0, 0⟩
  let a1 : PerfState :=
    match tx.type with
    | .buy => ⟨a.totalQuantity + tx.quantity, a.totalInvested + tx.quantity * tx.value⟩
    | .sell =>
      let avgCost := if a.totalQuantity > 0 then a.totalInvested / a.totalQuantity else 0
      ⟨a.totalQuantity - tx.quantity, a.totalInvested - tx.quantity * avgCost⟩
  let a2 : PerfState := if a1.totalQuantity < qtyEps then ⟨0, 0⟩ else a1
  upsert tx.asset a2 m

/-- Output row of the performance calculator (`AssetPerformance`). -/
structure AssetPerformance where
  symbol : String
  totalInvested : ℚ
  currentValue : ℚ
  profitLoss : ℚ
  variation : ℚ
  totalQuantity : ℚ
deriving DecidableEq

/-- `calculateAssetPerformance`: fold the date-sorted ledger per asset,
then emit one row per asset with positive remaining quantity. -/
def calculateAssetPerformance (txs : List Transaction) (crypto : CryptoData) :
    List AssetPerformance :=
  let m := (sortByDate txs).foldl perfStep []
  m.filterMap (fun e =>
    if e.2.totalQuantity ≤ 0 then none
    else
      let currentPrice := (crypto e.1).getD 0
      let currentValue := e.2.totalQuantity * currentPrice
      let profitLoss := currentValue - e.2.totalInvested
      let variation := if e.2.totalInvested > 0 then profitLoss / e.2.totalInvested * 100 else 0
      some ⟨e.1, e.2.totalInvested, currentValue, profitLoss, variation, e.2.totalQuantity⟩)

/-- Content of the caller's `transactions` array after
`calculateAssetPerformance` returns: the source calls
`transactions.sort(...)` directly on its argument (no copy, unlike the
other functions in the module, which copy with a spread first), so the
array is sorted in place. -/
def calculateAssetPerformanceArgAfter (txs : List Transaction) : List Transaction :=
  sortByDate txs

/-- Per-asset running state of the profit/loss analyzer. -/
structure ProfitState where
  totalBought : ℚ
  totalSold : ℚ
  remainingQuantity : ℚ
  averageBuyPrice : ℚ
  realizedProfit : ℚ
deriving DecidableEq

/-- One transaction step of the `calculateProfitAnalysis` fold. -/
def profitStep (m : List (String × ProfitState)) (tx : Transaction) : List (String × ProfitState) :=
  let a := (m.lookup tx.asset).getD ⟨0, 0, 0, 0, 0⟩
  let a1 : ProfitState :=
    match tx.type with
    | .buy =>
      let newTotalBought := a.totalBought + tx.quantity
      let newAverageBuyPrice :=
        (a.averageBuyPrice * a.totalBought + tx.value * tx.quantity) / newTotalBought
      { a with totalBought := newTotalBought, averageBuyPrice := newAverageBuyPrice }
    | .sell =>
      { a with totalSold := a.totalSold + tx.quantity,
               realizedProfit := a.realizedProfit + tx.quantity * (tx.value - a.averageBuyPrice) }
  let a2 := { a1 with remainingQuantity := a1.totalBought - a1.totalSold }
  upsert tx.asset a2 m

/-- Output row of the profit analyzer (`ProfitAnalysisData`). -/
structure ProfitAnalysisData where
  symbol : String
  totalBought : ℚ
  totalSold : ℚ
  remainingQuantity : ℚ
  averageBuyPrice : ℚ
  currentPrice : ℚ
  realizedProfit : ℚ
  unrealizedProfit : ℚ
  totalProfit : ℚ
  totalVariation : ℚ
deriving DecidableEq

/-- `calculateProfitAnalysis`: fold the date-sorted ledger per asset,
then emit one row per asset seen. -/
def calculateProfitAnalysis (txs : List Transaction) (crypto : CryptoData) :
    List ProfitAnalysisData :=
  let m := (sortByDate txs).foldl profitStep []
  m.map (fun e =>
    let currentPrice := (crypto e.1).getD 0
    let unrealizedProfit := e.2.remainingQuantity * (currentPrice - e.2.averageBuyPrice)
    let totalProfit := e.2.realizedProfit + unrealizedProfit
    let totalCostBasis := e.2.totalBought * e.2.averageBuyPrice
    let totalVariation := if totalCostBasis > 0 then totalProfit / totalCostBasis * 100 else 0
    ⟨e.1, e.2.totalBought, e.2.totalSold, e.2.remainingQuantity, e.2.averageBuyPrice,
      currentPrice, e.2.realizedProfit, unrealizedProfit, totalProfit, totalVariation⟩)

/-- Content of the caller's `transactions` array after
`calculateProfitAnalysis` returns: sorted in place, as in
`calculateAssetPerformanceArgAfter`. -/
def calculateProfitAnalysisArgAfter (txs : List Transaction) : List Transaction :=
  sortByDate txs

/-- Per-asset cost-basis state of the tax simulator. -/
structure TaxBasis where
  totalQuantity : ℚ
  totalCost : ℚ
deriving DecidableEq

/-- One line of the monthly tax table (`MonthlyTaxReport`). -/
structure MonthlyTaxReport where
  month : Nat
  year : Int
  totalSales : ℚ
  realizedProfit : ℚ
  isExempt : Bool
  taxDue : ℚ
deriving DecidableEq

/-- The annual rollup (`AnnualTaxReport`). -/
structure AnnualTaxReport where
  year : Int
  totalTaxDue : ℚ
  totalTaxableSales : ℚ
  taxableMonthsCount : Nat
  monthlyReports : List MonthlyTaxReport
deriving DecidableEq

/-- `TAX_EXEMPTION_LIMIT = 35000`. -/
def taxExemptionLimit : ℚ := 35000

/-- `TAX_RATE = 0.15`. -/
def taxRate : ℚ := 15 / 100

/-- In-place update of the element at an index (models
`monthlyReports[txMonth].totalSales += ...`); out of range is a no-op. -/
def modifyAt {α : Type} (f : α → α) : Nat → List α → List α
  | _, [] => []
  | 0, a :: l => f a :: l
  | n + 1, a :: l => a :: modifyAt f n l

/-- One transaction step of the `calculateTaxReport` fold: threads the
per-asset cost basis and, for sells dated in the target year, adds the
sale value and realized profit to that month's line. -/
def taxStep (year : Int) (st : List (String × TaxBasis) × List MonthlyTaxReport)
    (tx : Transaction) : List (String × TaxBasis) × List MonthlyTaxReport :=
  let basis := (st.1.lookup tx.asset).getD ⟨0, 0⟩
  match parseDateParts tx.date with
  | none => st
  | some (ty, tm, _) =>
    match tx.type with
    | .buy =>
      (upsert tx.asset ⟨basis.totalQuantity + tx.quantity,
        basis.totalCost + tx.quantity * tx.value⟩ st.1, st.2)
    | .sell =>
      let avgCost := if basis.totalQuantity > 0 then basis.totalCost / basis.totalQuantity else 0
      let costOfSale := tx.quantity * avgCost
      let monthly :=
        if (ty : Int) = year then
          modifyAt (fun r =>
              { r with totalSales := r.totalSales + tx.quantity * tx.value,
                       realizedProfit := r.realizedProfit + (tx.quantity * tx.value - costOfSale) })
            (tm - 1) st.2
        else st.2
      let b1 : TaxBasis := ⟨basis.totalQuantity - tx.quantity, basis.totalCost - costOfSale⟩
      let b2 : TaxBasis := if b1.totalQuantity < qtyEps then ⟨0, 0⟩ else b1
      (upsert tx.asset b2 st.1, monthly)

/-- The final pass of `calculateTaxReport`: walk the monthly table,
marking months with sales above the exemption limit non-exempt, setting
their tax due (15% of positive realized profit), and accumulating the
annual totals.  The accumulator holds (reports so far, totalTaxDue,
totalTaxableSales, taxableMonthsCount). -/
def taxFinalizeGo (acc : List MonthlyTaxReport × ℚ × ℚ × Nat) :
    List MonthlyTaxReport → List MonthlyTaxReport × ℚ × ℚ × Nat
  | [] => acc
  | r :: rs =>
    if r.totalSales > taxExemptionLimit then
      let r1 := { r with isExempt := false }
      if r.realizedProfit > 0 then
        let r2 := { r1 with taxDue := r.realizedProfit * taxRate }
        taxFinalizeGo (acc.1 ++ [r2], acc.2.1 + r2.taxDue, acc.2.2.1 + r.totalSales, acc.2.2.2 + 1) rs
      else
        taxFinalizeGo (acc.1 ++ [r1], acc.2.1, acc.2.2.1 + r.totalSales, acc.2.2.2 + 1) rs
    else taxFinalizeGo (acc.1 ++ [r], acc.2) rs

/-- `calculateTaxReport`: filter to transactions dated up to the target
year (an unparseable date has `getFullYear() = NaN`, which fails the
`<= year` test and is silently dropped), sort, fold the cost basis and
monthly sales, then finalize. -/
def calculateTaxReport (txs : List Transaction) (year : Int) : AnnualTaxReport :=
  let sorted := sortByDate (txs.filter (fun tx =>
    match parseDateParts tx.date with
    | some p => ((p.1 : Int) ≤ year : Bool)
    | none => false))
  let initMonthly : List MonthlyTaxReport :=
    (List.range 12).map (fun i => ⟨i + 1, year, 0, 0, true, 0⟩)
  let st := sorted.foldl (taxStep year) ([], initMonthly)
  let fin := taxFinalizeGo ([], 0, 0, 0) st.2
  ⟨year, fin.2.1, fin.2.2.1, fin.2.2.2, fin.1⟩

/-- Per-asset running state of the time-series reconstructor. -/
structure AssetState where
  quantity : ℚ
  invested : ℚ
deriving DecidableEq

/-- One point of the reconstructed series (`PortfolioHistoryPoint`);
the date is a civil day number, `price` is only set in single-asset
mode when a valid price was found. -/
structure PortfolioHistoryPoint where
  date : Int
  investedValue : ℚ
  marketValue : ℚ
  price : Option ℚ
deriving DecidableEq

/-- One transaction step of the day loop of `calculateHistory`: updates
the per-asset portfolio and the running invested total. -/
def historyTxStep (st : List (String × AssetState) × ℚ) (tx : Transaction) :
    List (String × AssetState) × ℚ :=
  let a := (st.1.lookup tx.asset).getD ⟨0, 0⟩
  match tx.type with
  | .buy =>
    let a1 : AssetState := ⟨a.quantity + tx.quantity, a.invested + tx.quantity * tx.value⟩
    let a2 : AssetState := if a1.quantity < qtyEps then ⟨0, 0⟩ else a1
    (upsert tx.asset a2 st.1, st.2 + tx.quantity * tx.value)
  | .sell =>
    let avgCost := if a.quantity > 0 then a.invested / a.quantity else 0
    let costOfSale := tx.quantity * avgCost
    let investedToRemove := if costOfSale > a.invested then a.invested else costOfSale
    let a1 : AssetState := ⟨a.quantity - tx.quantity, a.invested - investedToRemove⟩
    let a2 : AssetState := if a1.quantity < qtyEps then ⟨0, 0⟩ else a1
    (upsert tx.asset a2 st.1, st.2 - investedToRemove)

/-- Price lookup for one day of the loop: today uses the live price,
past days the historical map. -/
def historyGetPrice (hist : HistoricalPrices) (crypto : CryptoData) (today d : Int)
    (s : String) : Option ℚ :=
  if d = today then crypto s else hist s d

/-- Contribution of one held asset to a day's market value: its
quantity times the price when a valid (positive) price is available,
its cost basis (`invested`) otherwise — the fallback rule. -/
def assetDayContribution (a : AssetState) (price : Option ℚ) : ℚ :=
  match price with
  | some p => if p > 0 then a.quantity * p else a.invested
  | none => a.invested

/-- Market value of a day: sum of the contributions of the assets held
with positive quantity (models the `currentMarketValue +=` loop). -/
def dayMarketValue (portfolio : List (String × AssetState)) (getP : String → Option ℚ) : ℚ :=
  (portfolio.map (fun e => if e.2.quantity > 0 then assetDayContribution e.2 (getP e.1) else 0)).sum

/-- The `priceForPoint` computed by the same loop: in single-asset mode
the last valid price seen wins, otherwise it stays unset. -/
def dayPricePoint (portfolio : List (String × AssetState)) (getP : String → Option ℚ)
    (single : Bool) : Option ℚ :=
  portfolio.foldl (fun (acc : Option ℚ) (e : String × AssetState) =>
    if e.2.quantity > 0 then
      match getP e.1 with
      | some p => if p > 0 ∧ single then some p else acc
      | none => acc
    else acc) none

/-- The dense day grid `[a, a+1, ..., b]` (empty when `a > b`). -/
def dayRangeI (a b : Int) : List Int :=
  (List.range (b + 1 - a).toNat).map (fun (i : Nat) => a + (i : Int))

/-- One day of the `calculateHistory` loop: apply that day's
transactions, then append the day's point. -/
def historyDayStep (txsOn : Int → List Transaction) (getP : Int → String → Option ℚ)
    (single : Bool)
    (acc : (List (String × AssetState) × ℚ) × List PortfolioHistoryPoint) (d : Int) :
    (List (String × AssetState) × ℚ) × List PortfolioHistoryPoint :=
  let st := (txsOn d).foldl historyTxStep acc.1
  let mv := dayMarketValue st.1 (getP d)
  let pp := dayPricePoint st.1 (getP d) single
  (st, acc.2 ++ [⟨d, st.2, mv, pp⟩])

/-- The private `calculateHistory`: `none` models the `RangeError`
thrown by `toISOString` when the first transaction's date is an Invalid
Date; otherwise the synthetic zero anchor at (first date − 1) followed
by one point per day from the first date through today. -/
def calculateHistory (txs : List Transaction) (hist : HistoricalPrices)
    (crypto : CryptoData) (today : Int) : Option (List PortfolioHistoryPoint) :=
  match sortByDate txs with
  | [] => some []
  | t0 :: rest =>
    match jsDateDay t0.date with
    | none => none
    | some firstDay =>
      let sorted := t0 :: rest
      let txsOn := fun (d : Int) => sorted.filter (fun tx => jsDateDay tx.date == some d)
      let single := ((txs.map (fun tx => tx.asset)).dedup.length == 1 : Bool)
      let getP := historyGetPrice hist crypto today
      let fold := (dayRangeI firstDay today).foldl (historyDayStep txsOn getP single) (([], 0), [])
      some (⟨firstDay - 1, 0, 0, none⟩ :: fold.2)

/-- `calculatePortfolioHistory`: the whole-ledger variant. -/
def calculatePortfolioHistory (txs : List Transaction) (hist : HistoricalPrices)
    (crypto : CryptoData) (today : Int) : Option (List PortfolioHistoryPoint) :=
  calculateHistory txs hist crypto today

/-- `calculateAssetHistory`: the single-symbol variant (pre-filtered
transaction list). -/
def calculateAssetHistory (assetSymbol : String) (txs : List Transaction)
    (hist : HistoricalPrices) (crypto : CryptoData) (today : Int) :
    Option (List PortfolioHistoryPoint) :=
  calculateHistory (txs.filter (fun tx => tx.asset = assetSymbol)) hist crypto today

/-- Action of a rebalance suggestion: `'buy' | 'sell'`. -/
inductive RebAction where
  | buy : RebAction
  | sell : RebAction
deriving DecidableEq

/-- One suggested order (`RebalanceSuggestion`). -/
structure RebalanceSuggestion where
  symbol : String
  action : RebAction
  amountBRL : ℚ
  quantity : ℚ
  currentValue : ℚ
  targetValue : ℚ
  currentAllocation : ℚ
  targetAllocation : ℚ
deriving DecidableEq

/-- First-occurrence deduplication, the order a JS `Set` built from a
spread of the two symbol lists iterates in. -/
def uniqueFirst (l : List String) : List String :=
  l.foldl (fun acc s => if s ∈ acc then acc else acc ++ [s]) []

/-- The final sort comparator of `calculateRebalanceSuggestions` as a
`le` relation: all sells before all buys, then descending by amount. -/
def suggestionLe (a b : RebalanceSuggestion) : Bool :=
  if a.action = .sell ∧ b.action = .buy then true
  else if a.action = .buy ∧ b.action = .sell then false
  else b.amountBRL ≤ a.amountBRL

/-- `calculateRebalanceSuggestions`: carve anchored assets out of the
total, full-liquidation branch when the rebalanceable target is ≤ 0,
otherwise renormalized target percentages over the non-anchored symbols
with a 0.01 fiat no-op threshold, sorted sells-then-buys. -/
def calculateRebalanceSuggestions (performanceData : List AssetPerformance)
    (targetAllocations : List (String × ℚ)) (crypto : CryptoData)
    (capitalChange : ℚ) (anchoredAssets : String → Bool) : List RebalanceSuggestion :=
  let currentTotalPortfolioValue := (performanceData.map (fun p => p.currentValue)).sum
  let totalAnchoredValue :=
    ((performanceData.filter (fun p => anchoredAssets p.symbol)).map (fun p => p.currentValue)).sum
  let rebalanceableTargetValue := currentTotalPortfolioValue + capitalChange - totalAnchoredValue
  if rebalanceableTargetValue ≤ 0 then
    (performanceData.filter (fun p => !anchoredAssets p.symbol ∧ p.currentValue > 0)).map
      (fun p =>
        ⟨p.symbol, .sell, p.currentValue, p.totalQuantity, p.currentValue, 0,
          p.currentValue / currentTotalPortfolioValue * 100, 0⟩)
  else
    let rebalanceableSymbols :=
      (targetAllocations.map (fun e => e.1)).filter (fun s => !anchoredAssets s)
    let totalTargetPercentForRebalance :=
      (rebalanceableSymbols.map (fun s => (targetAllocations.lookup s).getD 0)).sum
    let allSymbols :=
      uniqueFirst (performanceData.map (fun p => p.symbol) ++ targetAllocations.map (fun e => e.1))
    let suggestions := allSymbols.filterMap (fun symbol =>
      if anchoredAssets symbol then none
      else
        let asset := performanceData.find? (fun p => p.symbol = symbol)
        let currentValue := (asset.map (fun p => p.currentValue)).getD 0
        let currentAllocation :=
          if currentTotalPortfolioValue > 0 then currentValue / currentTotalPortfolioValue * 100
          else 0
        let targetAllocation := (targetAllocations.lookup symbol).getD 0
        let targetValue :=
          if totalTargetPercentForRebalance > 0 then
            rebalanceableTargetValue *
              ((targetAllocations.lookup symbol).getD 0 / totalTargetPercentForRebalance)
          else 0
        let differenceBRL := targetValue - currentValue
        let currentPrice : Option ℚ :=
          match asset with
          | some a => if a.totalQuantity > 0 then some (a.currentValue / a.totalQuantity)
                      else crypto symbol
          | none => crypto symbol
        let priceFalsy : Bool := match currentPrice with
          | none => true
          | some p => p == 0
        if priceFalsy ∧ differenceBRL > 0 then none
        else
          let quantity := match currentPrice with
            | some p => if p > 0 then differenceBRL / p else 0
            | none => 0
          if |differenceBRL| > 1 / 100 then
            some ⟨symbol, if differenceBRL > 0 then .buy else .sell, |differenceBRL|, |quantity|,
              currentValue, targetValue, currentAllocation, targetAllocation⟩
          else none)
    suggestions.mergeSort suggestionLe

/-- The earliest parseable transaction date (claim-side notion used to
state the day-grid property). -/
def earliestTxDay (txs : List Transaction) : Option Int :=
  (txs.filterMap (fun tx => jsDateDay tx.date)).min?

/-- What the final pass of the tax simulator does to one monthly line
(proof-side closed form of `taxFinalizeGo` on a single report). -/
def finalizeOne (r : MonthlyTaxReport) : MonthlyTaxReport :=
  if r.totalSales > taxExemptionLimit then
    if r.realizedProfit > 0 then { r with isExempt := false, taxDue := r.realizedProfit * taxRate }
    else { r with isExempt := false }
  else r

/-- An empty current-price map. -/
def noPrices : CryptoData := fun _ => none

/-- An empty historical-price map. -/
def noHist : HistoricalPrices := fun _ _ => none

/-- Concrete ledger for the tax examples: a 40000 sale in January 2023
(no cost basis, so fully profit) and a sale of exactly 35000 in
February 2023. -/
def txsTax : List Transaction :=
  [⟨1, .sell, "2023-01-15", "A", 1, 40000⟩, ⟨2, .sell, "2023-02-15", "A", 1, 35000⟩]

/-- The January line produced by `calculateTaxReport txsTax 2023`. -/
def mRepJan : MonthlyTaxReport := ⟨1, 2023, 40000, 40000, false, 6000⟩

/-- The February line produced by `calculateTaxReport txsTax 2023`. -/
def mRepFeb : MonthlyTaxReport := ⟨2, 2023, 35000, 35000, true, 0⟩

/-- A transaction dated after another one, for exhibiting the in-place
sort of the argument array. -/
def txFeb : Transaction := ⟨1, .buy, "2023-02-01", "A", 1, 1⟩

/-- A transaction dated before `txFeb` but listed after it. -/
def txJan : Transaction := ⟨2, .buy, "2023-01-01", "B", 1, 1⟩

/-- A dust buy: quantity 1e-9, below the 1e-8 clamping epsilon. -/
def dustBuy : Transaction := ⟨1, .buy, "2023-01-01", "A", 1 / 1000000000, 100⟩

/-- A normal buy of the same asset after the dust buy. -/
def bigBuy : Transaction := ⟨2, .buy, "2023-01-02", "A", 1, 100⟩

/-- Two ordinary buys of one asset (witness input for cost-basis
conservation). -/
def txsBuys : List Transaction :=
  [⟨1, .buy, "2023-01-01", "A", 1, 2⟩, ⟨2, .buy, "2023-01-02", "A", 3, 4⟩]

/-- A transaction whose date string does not parse
(`new Date("not-a-date")` is an Invalid Date). -/
def badDateTx : Transaction := ⟨1, .sell, "not-a-date", "A", 1, 40000⟩

/-- Performance row used by the rebalance witness: asset A held,
quantity 1, worth 100. -/
def perfA : List AssetPerformance := [⟨"A", 100, 100, 0, 0, 1⟩]

/-- Target allocation 50/50 between A and B. -/
def targetsAB : List (String × ℚ) := [("A", 50), ("B", 50)]

/-- Current price map giving B the price 10. -/
def priceB : CryptoData := fun s => if s = "B" then some 10 else none

/-- No asset anchored. -/
def noAnchors : String → Bool := fun _ => false

/-- The sell order the rebalance witness exhibits in the output. -/
def sugSellA : RebalanceSuggestion := ⟨"A", .sell, 50, 1 / 2, 100, 50, 100, 50⟩

/-- Average-cost scenario, first stage: buy 1 @ 100 then 1 @ 300. -/
def txsTwoBuys : List Transaction :=
  [⟨1, .buy, "2023-01-01", "BTC", 1, 100⟩, ⟨2, .buy, "2023-01-02", "BTC", 1, 300⟩]

/-- Average-cost scenario, second stage: the same buys then a sell of
1 @ 500. -/
def txsTwoBuysSell : List Transaction :=
  txsTwoBuys ++ [⟨3, .sell, "2023-01-03", "BTC", 1, 500⟩]

/-- A single buy dated 2023-01-10 (civil day 19367), used with `today`
values around it for the history claims. -/
def txsOneBuy : List Transaction := [⟨1, .buy, "2023-01-10", "BTC", 1, 50⟩]

/-- A sell transaction used to instantiate the sell-step invariant. -/
def sellTxW : Transaction := ⟨3, .sell, "2023-01-03", "BTC", 1, 500⟩

/-- Default (all-zero) profit state, the `get(...) || {...}` fallback. -/
def zeroProfitState : ProfitState := ⟨0, 0, 0, 0, 0⟩

lemma lookup_upsert {β : Type} (k : String) (v : β) (l : List (String × β)) (q : String) :
    (upsert k v l).lookup q = if q = k then some v else l.lookup q := by
  induction l with
  | nil =>
    by_cases hq : q = k
    · simp [upsert, List.lookup_cons, beq_iff_eq.mpr hq, hq]
    · simp [upsert, List.lookup_cons, beq_eq_false_iff_ne.mpr hq, hq]
  | cons e rest ih =>
    obtain ⟨k1, v1⟩ := e
    by_cases hk : k1 = k
    · subst hk
      by_cases hq : q = k1
      · simp [upsert, List.lookup_cons, beq_iff_eq.mpr hq, hq]
      · simp [upsert, List.lookup_cons, beq_eq_false_iff_ne.mpr hq, hq]
    · by_cases hq : q = k1
      · have hqk : ¬q = k := fun h => hk (hq ▸ h)
        simp [upsert, hk, List.lookup_cons, beq_iff_eq.mpr hq, hqk]
      · simp [upsert, hk, List.lookup_cons, beq_eq_false_iff_ne.mpr hq, ih]

/-- C2: the claim that `calculateAssetPerformance` and
`calculateProfitAnalysis` leave their transaction-array argument
unchanged fails: both call `transactions.sort(...)` in place, so after
the call the caller's array is date-sorted.  On the two-element array
`[txFeb, txJan]` (out of date order) the argument ends up reordered. -/
theorem argument_array_is_sorted_in_place :
    calculateAssetPerformanceArgAfter [txFeb, txJan] = [txJan, txFeb] ∧
    calculateProfitAnalysisArgAfter [txFeb, txJan] = [txJan, txFeb] ∧
    ([txJan, txFeb] : List Transaction) ≠ [txFeb, txJan] := by decide

/-- C4: `calculateTaxReport` on a transaction with a non-parseable date
does not fail: `getFullYear()` is `NaN`, the `<= year` filter drops the
transaction, and the function silently returns the same all-zero report
as for an empty ledger (no error of any kind is raised). -/
theorem tax_report_silently_zeroes_bad_dates :
    calculateTaxReport [badDateTx] 2023 = calculateTaxReport [] 2023 ∧
    (calculateTaxReport [badDateTx] 2023).totalTaxDue = 0 ∧
    (calculateTaxReport [badDateTx] 2023).monthlyReports.all
      (fun r => r.totalSales == 0 && r.taxDue == 0 && r.isExempt) = true := by decide

/-- C6: a sell step never changes any asset's `averageBuyPrice` (only
buys do, via the weighted-average update), and concretely: buy 1 @ 100
then 1 @ 300 gives average 200 with totalBought 2, and the subsequent
sell of 1 @ 500 gives realizedProfit 300, remainingQuantity 1, with the
average still 200. -/
theorem sell_preserves_average_buy_price :
    (∀ (m : List (String × ProfitState)) (tx : Transaction) (s : String),
      tx.type = TxType.sell →
      (((profitStep m tx).lookup s).getD zeroProfitState).averageBuyPrice =
        ((m.lookup s).getD zeroProfitState).averageBuyPrice) ∧
    (calculateProfitAnalysis txsTwoBuys noPrices).map
      (fun p => (p.averageBuyPrice, p.totalBought)) = [(200, 2)] ∧
    (calculateProfitAnalysis txsTwoBuysSell noPrices).map
      (fun p => (p.realizedProfit, p.remainingQuantity, p.averageBuyPrice)) = [(300, 1, 200)] := by
  refine ⟨?_, by decide, by decide⟩
  intro m tx s htx
  simp only [profitStep, htx, lookup_upsert, zeroProfitState]
  by_cases hs : s = tx.asset
  · simp [hs]
  · simp [hs]

/-- Witness for the sell-step invariant of
`sell_preserves_average_buy_price` at a concrete state and sell. -/
theorem sell_preserves_average_buy_price_witness :
    sellTxW.type = TxType.sell ∧
    (((profitStep [] sellTxW).lookup "BTC").getD zeroProfitState).averageBuyPrice =
      ((([] : List (String × ProfitState)).lookup "BTC").getD zeroProfitState).averageBuyPrice :=
  ⟨rfl, sell_preserves_average_buy_price.1 [] sellTxW "BTC" rfl⟩

/-- C3 counterexample: with a dust buy of quantity 1e-9 (below the 1e-8
clamping epsilon) followed by a normal buy, `calculateAssetPerformance`
reports totalInvested 100, while the exact sum of quantity × unitPrice
over the buys is 100 + 1e-7 — the claimed exact conservation fails. -/
theorem cost_basis_conservation_fails_on_dust :
    ([dustBuy, bigBuy].all (fun tx => tx.type == TxType.buy && tx.asset == "A") = true) ∧
    (calculateAssetPerformance [dustBuy, bigBuy] noPrices).map
      (fun p => p.totalInvested) = [100] ∧
    ([dustBuy, bigBuy].map (fun tx => tx.quantity * tx.value)).sum = 100 + 1 / 10000000 ∧
    (100 : ℚ) ≠ 100 + 1 / 10000000 := by decide

lemma perf_fold_buys (A : String) (l : List Transaction) :
    ∀ (q i : ℚ), 0 ≤ q →
    (∀ tx ∈ l, tx.type = TxType.buy ∧ tx.asset = A ∧ qtyEps ≤ tx.quantity) →
    l.foldl perfStep [(A, ⟨q, i⟩)] =
      [(A, ⟨q + (l.map (fun tx => tx.quantity)).sum,
            i + (l.map (fun tx => tx.quantity * tx.value)).sum⟩)] := by
  induction l with
  | nil => intro q i _ _; simp
  | cons tx rest ih =>
    intro q i hq hall
    obtain ⟨hbuy, hasset, heps⟩ := hall tx (by simp)
    have hstep : perfStep [(A, ⟨q, i⟩)] tx =
        [(A, ⟨q + tx.quantity, i + tx.quantity * tx.value⟩)] := by
      have hlk : ([(A, (⟨q, i⟩ : PerfState))].lookup tx.asset) = some ⟨q, i⟩ := by
        simp [List.lookup_cons, beq_iff_eq.mpr hasset]
      have hnoclamp : ¬(q + tx.quantity < qtyEps) := by
        have : qtyEps ≤ q + tx.quantity := le_add_of_nonneg_of_le hq heps
        exact not_lt.mpr this
      simp [perfStep, hlk, hbuy, hnoclamp, upsert, hasset]
    have hq' : 0 ≤ q + tx.quantity := by
      have heps0 : (0 : ℚ) ≤ qtyEps := by norm_num [qtyEps]
      exact add_nonneg hq (le_trans heps0 heps)
    have := ih (q + tx.quantity) (i + tx.quantity * tx.value) hq'
      (fun t ht => hall t (by simp [ht]))
    simp only [List.foldl_cons, hstep, this, List.map_cons, List.sum_cons]
    simp [add_assoc]

/-- C3 (amended): for a non-empty ledger containing only buys of one
asset, each of quantity at least the 1e-8 clamping epsilon,
`calculateAssetPerformance` reports exactly that asset with
totalInvested equal to the exact sum of quantity × unitPrice. -/
theorem cost_basis_conservation_no_sells (txs : List Transaction) (crypto : CryptoData)
    (A : String) (hne : txs ≠ [])
    (hall : ∀ tx ∈ txs, tx.type = TxType.buy ∧ tx.asset = A ∧ qtyEps ≤ tx.quantity) :
    (calculateAssetPerformance txs crypto).map (fun p => (p.symbol, p.totalInvested)) =
      [(A, (txs.map (fun tx => tx.quantity * tx.value)).sum)] := by
  have hperm : (sortByDate txs).Perm txs := List.mergeSort_perm txs dateLe
  have hall' : ∀ tx ∈ sortByDate txs, tx.type = TxType.buy ∧ tx.asset = A ∧ qtyEps ≤ tx.quantity :=
    fun tx ht => hall tx (hperm.mem_iff.mp ht)
  have hne' : sortByDate txs ≠ [] := by
    intro h
    exact hne (List.eq_nil_of_length_eq_zero (by
      have := hperm.length_eq
      rw [h] at this
      simpa using this.symm))
  obtain ⟨t0, rest, hcons⟩ := List.exists_cons_of_ne_nil hne'
  obtain ⟨hbuy0, hasset0, heps0⟩ := hall' t0 (by rw [hcons]; simp)
  have heps0' : (0 : ℚ) ≤ qtyEps := by norm_num [qtyEps]
  have hstep0 : perfStep [] t0 = [(A, ⟨t0.quantity, t0.quantity * t0.value⟩)] := by
    have hnoclamp : ¬(t0.quantity < qtyEps) := not_lt.mpr heps0
    simp [perfStep, List.lookup, hbuy0, hnoclamp, upsert, hasset0]
  have hrest : ∀ tx ∈ rest, tx.type = TxType.buy ∧ tx.asset = A ∧ qtyEps ≤ tx.quantity :=
    fun tx ht => hall' tx (by rw [hcons]; simp [ht])
  have hfold := perf_fold_buys A rest t0.quantity (t0.quantity * t0.value)
    (le_trans heps0' heps0) hrest
  have hm : (sortByDate txs).foldl perfStep [] =
      [(A, ⟨t0.quantity + (rest.map (fun tx => tx.quantity)).sum,
            t0.quantity * t0.value + (rest.map (fun tx => tx.quantity * tx.value)).sum⟩)] := by
    rw [hcons, List.foldl_cons, hstep0, hfold]
  have hqpos : 0 < t0.quantity + (rest.map (fun tx => tx.quantity)).sum := by
    have hsum : 0 ≤ (rest.map (fun tx => tx.quantity)).sum := by
      apply List.sum_nonneg
      intro x hx
      obtain ⟨tx, htx, rfl⟩ := List.mem_map.mp hx
      exact le_trans heps0' (hrest tx htx).2.2
    have : (0 : ℚ) < t0.quantity := lt_of_lt_of_le (by norm_num [qtyEps]) heps0
    linarith
  have hsum_eq : t0.quantity * t0.value + (rest.map (fun tx => tx.quantity * tx.value)).sum =
      (txs.map (fun tx => tx.quantity * tx.value)).sum := by
    have : ((sortByDate txs).map (fun tx => tx.quantity * tx.value)).sum =
        (txs.map (fun tx => tx.quantity * tx.value)).sum :=
      (hperm.map (fun tx => tx.quantity * tx.value)).sum_eq
    rw [hcons] at this
    simpa using this
  simp only [calculateAssetPerformance, hm, List.filterMap_cons, List.filterMap_nil]
  rw [if_neg (not_le.mpr hqpos)]
  simp [hsum_eq]

/-- Witness for `cost_basis_conservation_no_sells`: two buys of asset A,
1 @ 2 and 3 @ 4, give totalInvested 14 = 1·2 + 3·4 exactly. -/
theorem cost_basis_conservation_no_sells_witness :
    txsBuys ≠ [] ∧
    (∀ tx ∈ txsBuys, tx.type = TxType.buy ∧ tx.asset = "A" ∧ qtyEps ≤ tx.quantity) ∧
    (calculateAssetPerformance txsBuys noPrices).map (fun p => (p.symbol, p.totalInvested)) =
      [("A", (txsBuys.map (fun tx => tx.quantity * tx.value)).sum)] :=
  ⟨by decide, by decide, cost_basis_conservation_no_sells txsBuys noPrices "A"
    (by decide) (by decide)⟩

/-- C5: an anchored asset never appears in the rebalance suggestions —
neither in the full-liquidation branch (which filters anchored symbols
out) nor in the normal computation (which skips them before generating
any order). -/
theorem anchored_assets_never_suggested (performanceData : List AssetPerformance)
    (targetAllocations : List (String × ℚ)) (crypto : CryptoData) (capitalChange : ℚ)
    (anchoredAssets : String → Bool) (sug : RebalanceSuggestion)
    (hmem : sug ∈ calculateRebalanceSuggestions performanceData targetAllocations crypto
      capitalChange anchoredAssets) :
    anchoredAssets sug.symbol = false := by
  simp only [calculateRebalanceSuggestions] at hmem
  split at hmem
  · obtain ⟨p, hp, rfl⟩ := List.mem_map.mp hmem
    have := (List.mem_filter.mp hp).2
    simp only [Bool.decide_and, Bool.and_eq_true, decide_eq_true_eq, Bool.not_eq_eq_eq_not,
      Bool.not_true] at this
    simpa using this.1
  · rw [(List.mergeSort_perm _ suggestionLe).mem_iff] at hmem
    obtain ⟨symbol, hsym, hg⟩ := List.mem_filterMap.mp hmem
    by_cases ha : anchoredAssets symbol
    · simp [ha] at hg
    · rw [if_neg ha] at hg
      split_ifs at hg <;>
        first
          | exact Option.noConfusion hg
          | (cases hg; simpa using ha)

/-- Witness for `anchored_assets_never_suggested` at a concrete
portfolio: the sell order for A is in the output and A is not anchored. -/
theorem anchored_assets_never_suggested_witness :
    sugSellA ∈ calculateRebalanceSuggestions perfA targetsAB priceB 0 noAnchors ∧
    noAnchors sugSellA.symbol = false :=
  ⟨by decide, anchored_assets_never_suggested perfA targetsAB priceB 0 noAnchors sugSellA
    (by decide)⟩

lemma map_modifyAt {α β : Type} (f : α → α) (g : α → β) (hfg : ∀ x, g (f x) = g x) :
    ∀ (n : Nat) (l : List α), (modifyAt f n l).map g = l.map g := by
  intro n l
  induction l generalizing n with
  | nil => cases n <;> simp [modifyAt]
  | cons a rest ih =>
    cases n with
    | zero => simp [modifyAt, hfg]
    | succ m => simp [modifyAt, ih]

lemma mem_modifyAt {α : Type} {f : α → α} {a : α} :
    ∀ {n : Nat} {l : List α}, a ∈ modifyAt f n l → a ∈ l ∨ ∃ b ∈ l, a = f b := by
  intro n l
  induction l generalizing n with
  | nil => intro h; exact absurd h (by simp [modifyAt])
  | cons x rest ih =>
    cases n with
    | zero =>
      intro h
      rcases List.mem_cons.mp h with h1 | h1
      · exact Or.inr ⟨x, by simp, h1⟩
      · exact Or.inl (List.mem_cons_of_mem x h1)
    | succ m =>
      intro h
      rcases List.mem_cons.mp h with h1 | h1
      · exact Or.inl (h1 ▸ List.mem_cons_self x rest)
      · rcases ih h1 with h2 | ⟨b, hb, hab⟩
        · exact Or.inl (List.mem_cons_of_mem x h2)
        · exact Or.inr ⟨b, List.mem_cons_of_mem x hb, hab⟩

lemma taxFold_monthly_map (year : Int) (txs : List Transaction) :
    ∀ st : List (String × TaxBasis) × List MonthlyTaxReport,
    (txs.foldl (taxStep year) st).2.map (fun r => (r.month, r.year, r.isExempt, r.taxDue)) =
      st.2.map (fun r => (r.month, r.year, r.isExempt, r.taxDue)) := by
  induction txs with
  | nil => intro st; rfl
  | cons tx rest ih =>
    intro st
    rw [List.foldl_cons, ih]
    rcases hp : parseDateParts tx.date with _ | ⟨ty, tm, td⟩
    · simp [taxStep, hp]
    · rcases htx : tx.type with _ | _
      · simp [taxStep, hp, htx]
      · by_cases hy : (ty : Int) = year
        · simp only [taxStep, hp, htx, hy, if_pos]
          apply map_modifyAt
          intro x
          rfl
        · simp [taxStep, hp, htx, hy]

lemma taxFinalizeGo_spec (l : List MonthlyTaxReport) :
    ∀ acc : List MonthlyTaxReport × ℚ × ℚ × Nat,
    (∀ r ∈ l, r.isExempt = true ∧ r.taxDue = 0) →
    taxFinalizeGo acc l =
      (acc.1 ++ l.map finalizeOne,
       acc.2.1 + ((l.map finalizeOne).map (fun r => r.taxDue)).sum,
       acc.2.2.1 +
         (((l.map finalizeOne).filter (fun r => !r.isExempt)).map (fun r => r.totalSales)).sum,
       acc.2.2.2 + ((l.map finalizeOne).filter (fun r => !r.isExempt)).length) := by
  induction l with
  | nil => intro acc _; simp [taxFinalizeGo]
  | cons r rs ih =>
    intro acc h
    obtain ⟨hex, hdue⟩ := h r (List.mem_cons_self r rs)
    have hrs : ∀ x ∈ rs, x.isExempt = true ∧ x.taxDue = 0 :=
      fun x hx => h x (List.mem_cons_of_mem r hx)
    by_cases hc : r.totalSales > taxExemptionLimit
    · by_cases hq : r.realizedProfit > 0
      · simp only [taxFinalizeGo, if_pos hc, if_pos hq, ih _ hrs, List.map_cons]
        have hfo : finalizeOne r =
            { r with isExempt := false, taxDue := r.realizedProfit * taxRate } := by
          simp [finalizeOne, hc, hq]
        simp [hfo, List.filter_cons, add_assoc, Nat.add_comm]
      · simp only [taxFinalizeGo, if_pos hc, if_neg hq, ih _ hrs, List.map_cons]
        have hfo : finalizeOne r = { r with isExempt := false } := by
          simp [finalizeOne, hc, hq]
        simp [hfo, List.filter_cons, add_assoc, hdue, Nat.add_comm]
    · simp only [taxFinalizeGo, if_neg hc, ih _ hrs, List.map_cons]
      have hfo : finalizeOne r = r := by simp [finalizeOne, hc]
      simp [hfo, List.filter_cons, hex, hdue, add_assoc]

lemma calculateTaxReport_spec (txs : List Transaction) (year : Int) :
    ∃ l : List MonthlyTaxReport,
      (∀ r ∈ l, r.isExempt = true ∧ r.taxDue = 0) ∧
      l.map (fun r => r.month) = [1, 2, 3, 4, 5, 6, 7, 8, 9, 10, 11, 12] ∧
      l.map (fun r => r.year) = List.replicate 12 year ∧
      calculateTaxReport txs year =
        ⟨year, ((l.map finalizeOne).map (fun r => r.taxDue)).sum,
          (((l.map finalizeOne).filter (fun r => !r.isExempt)).map (fun r => r.totalSales)).sum,
          ((l.map finalizeOne).filter (fun r => !r.isExempt)).length,
          l.map finalizeOne⟩ := by
  set filtered := txs.filter (fun tx =>
    match parseDateParts tx.date with
    | some p => ((p.1 : Int) ≤ year : Bool)
    | none => false) with hfiltered
  set initMonthly : List MonthlyTaxReport :=
    (List.range 12).map (fun i => ⟨i + 1, year, 0, 0, true, 0⟩) with hinit
  set l := ((sortByDate filtered).foldl (taxStep year) ([], initMonthly)).2 with hl
  have hmap : l.map (fun r => (r.month, r.year, r.isExempt, r.taxDue)) =
      initMonthly.map (fun r => (r.month, r.year, r.isExempt, r.taxDue)) :=
    taxFold_monthly_map year (sortByDate filtered) ([], initMonthly)
  have hinitmap : initMonthly.map (fun r => (r.month, r.year, r.isExempt, r.taxDue)) =
      (List.range 12).map (fun i => (i + 1, year, true, 0)) := by
    rw [hinit, List.map_map]
    rfl
  have h2 : ∀ r ∈ l, r.isExempt = true ∧ r.taxDue = 0 := by
    intro r hr
    have hmem : (r.month, r.year, r.isExempt, r.taxDue) ∈
        l.map (fun r => (r.month, r.year, r.isExempt, r.taxDue)) :=
      List.mem_map_of_mem _ hr
    rw [hmap, hinitmap] at hmem
    obtain ⟨i, -, heq⟩ := List.mem_map.mp hmem
    exact ⟨(congrArg (fun t => t.2.2.1) heq).symm, (congrArg (fun t => t.2.2.2) heq).symm⟩
  refine ⟨l, h2, ?_, ?_, ?_⟩
  · have : l.map (fun r => r.month) =
        (l.map (fun r => (r.month, r.year, r.isExempt, r.taxDue))).map (fun t => t.1) := by
      rw [List.map_map]; rfl
    rw [this, hmap, hinitmap, List.map_map]
    have hcomp : ((fun t : Nat × Int × Bool × ℚ => t.1) ∘ fun i => (i + 1, year, true, 0)) =
        fun i : Nat => i + 1 := rfl
    rw [hcomp]
    decide
  · have : l.map (fun r => r.year) =
        (l.map (fun r => (r.month, r.year, r.isExempt, r.taxDue))).map (fun t => t.2.1) := by
      rw [List.map_map]; rfl
    rw [this, hmap, hinitmap, List.map_map]
    have : ((fun t : Nat × Int × Bool × ℚ => t.2.1) ∘ fun i => (i + 1, year, true, 0)) =
        fun _ : Nat => year := rfl
    rw [this]
    have hlen : (List.range 12).length = 12 := List.length_range 12
    rw [List.map_const', hlen]
  · show calculateTaxReport txs year = _
    rw [calculateTaxReport]
    simp only [← hfiltered, ← hinit, ← hl]
    rw [taxFinalizeGo_spec l ([], 0, 0, 0) h2]
    simp

lemma finalizeOne_month (r : MonthlyTaxReport) : (finalizeOne r).month = r.month := by
  simp only [finalizeOne]
  split_ifs <;> rfl

lemma finalizeOne_year (r : MonthlyTaxReport) : (finalizeOne r).year = r.year := by
  simp only [finalizeOne]
  split_ifs <;> rfl

/-- C1: a month of the tax report is exempt (isExempt with zero tax)
exactly when its total sales are at most 35000 — sales of exactly 35000
stay exempt — and a non-exempt month owes 15% of its realized profit
when that profit is positive and nothing otherwise. -/
theorem tax_exemption_rule (txs : List Transaction) (year : Int) (rep : MonthlyTaxReport)
    (hrep : rep ∈ (calculateTaxReport txs year).monthlyReports) :
    ((rep.isExempt = true ∧ rep.taxDue = 0) ↔ rep.totalSales ≤ 35000) ∧
    (35000 < rep.totalSales →
      rep.isExempt = false ∧
      rep.taxDue = if 0 < rep.realizedProfit then rep.realizedProfit * (15 / 100) else 0) := by
  obtain ⟨l, h2, -, -, heq⟩ := calculateTaxReport_spec txs year
  rw [heq] at hrep
  obtain ⟨r0, hr0, rfl⟩ := List.mem_map.mp hrep
  obtain ⟨hex, hdue⟩ := h2 r0 hr0
  have hlim : taxExemptionLimit = 35000 := rfl
  have hrate : taxRate = 15 / 100 := rfl
  by_cases hc : r0.totalSales > taxExemptionLimit
  · have hcl : (35000 : ℚ) < r0.totalSales := hlim ▸ hc
    by_cases hq : r0.realizedProfit > 0
    · have hfo : finalizeOne r0 =
          { r0 with isExempt := false, taxDue := r0.realizedProfit * taxRate } := by
        simp [finalizeOne, hc, hq]
      rw [hfo]
      refine ⟨⟨fun h => ?_, fun h => absurd hcl (not_lt.mpr h)⟩, fun _ => ⟨rfl, ?_⟩⟩
      · exact absurd h.1 (by simp)
      · show r0.realizedProfit * taxRate = _
        rw [if_pos hq, hrate]
    · have hfo : finalizeOne r0 = { r0 with isExempt := false } := by
        simp [finalizeOne, hc, hq]
      rw [hfo]
      refine ⟨⟨fun h => ?_, fun h => absurd hcl (not_lt.mpr h)⟩, fun _ => ⟨rfl, ?_⟩⟩
      · exact absurd h.1 (by simp)
      · show r0.taxDue = _
        rw [if_neg hq, hdue]
  · have hfo : finalizeOne r0 = r0 := by simp [finalizeOne, hc]
    rw [hfo]
    have hcl : r0.totalSales ≤ 35000 := hlim ▸ not_lt.mp hc
    exact ⟨⟨fun _ => hcl, fun _ => ⟨hex, hdue⟩⟩, fun h => absurd h (not_lt.mpr hcl)⟩

/-- Witness for `tax_exemption_rule`: in the 2023 report of `txsTax`,
January (sales 40000, profit 40000) is non-exempt with tax 6000, while
February (sales exactly 35000) is exempt with no tax. -/
theorem tax_exemption_rule_witness :
    mRepJan ∈ (calculateTaxReport txsTax 2023).monthlyReports ∧
    ((mRepJan.isExempt = true ∧ mRepJan.taxDue = 0) ↔ mRepJan.totalSales ≤ 35000) ∧
    (35000 < mRepJan.totalSales →
      mRepJan.isExempt = false ∧
      mRepJan.taxDue = if 0 < mRepJan.realizedProfit then mRepJan.realizedProfit * (15 / 100)
        else 0) ∧
    mRepFeb ∈ (calculateTaxReport txsTax 2023).monthlyReports ∧
    ((mRepFeb.isExempt = true ∧ mRepFeb.taxDue = 0) ↔ mRepFeb.totalSales ≤ 35000) :=
  ⟨by decide, (tax_exemption_rule txsTax 2023 mRepJan (by decide)).1,
    (tax_exemption_rule txsTax 2023 mRepJan (by decide)).2, by decide,
    (tax_exemption_rule txsTax 2023 mRepFeb (by decide)).1⟩

/-- C9: for every input the tax report has exactly 12 monthly lines,
months 1..12 in order, all carrying the requested year, and the annual
totals are exactly the sum of the monthly tax dues, the sum of sales
over non-exempt months, and the count of non-exempt months. -/
theorem tax_report_shape_and_totals (txs : List Transaction) (year : Int) :
    (calculateTaxReport txs year).monthlyReports.length = 12 ∧
    (calculateTaxReport txs year).monthlyReports.map (fun r => r.month) =
      [1, 2, 3, 4, 5, 6, 7, 8, 9, 10, 11, 12] ∧
    (calculateTaxReport txs year).monthlyReports.map (fun r => r.year) =
      List.replicate 12 year ∧
    (calculateTaxReport txs year).year = year ∧
    (calculateTaxReport txs year).totalTaxDue =
      ((calculateTaxReport txs year).monthlyReports.map (fun r => r.taxDue)).sum ∧
    (calculateTaxReport txs year).totalTaxableSales =
      (((calculateTaxReport txs year).monthlyReports.filter (fun r => !r.isExempt)).map
        (fun r => r.totalSales)).sum ∧
    (calculateTaxReport txs year).taxableMonthsCount =
      ((calculateTaxReport txs year).monthlyReports.filter (fun r => !r.isExempt)).length := by
  obtain ⟨l, h2, hmon, hyear, heq⟩ := calculateTaxReport_spec txs year
  rw [heq]
  refine ⟨?_, ?_, ?_, rfl, rfl, rfl, rfl⟩
  · have hlen : l.length = 12 := by
      have := congrArg List.length hmon
      simpa using this
    simp [hlen]
  · show (l.map finalizeOne).map (fun r => r.month) = _
    rw [List.map_map]
    have : ((fun r => r.month) ∘ finalizeOne) = fun r : MonthlyTaxReport => r.month := by
      funext r
      exact finalizeOne_month r
    rw [this, hmon]
  · show (l.map finalizeOne).map (fun r => r.year) = _
    rw [List.map_map]
    have : ((fun r => r.year) ∘ finalizeOne) = fun r : MonthlyTaxReport => r.year := by
      funext r
      exact finalizeOne_year r
    rw [this, hyear]

/-- C8: on a day where an asset is held with positive quantity but no
price is available, its contribution to that day's market value is
exactly its cost basis (`invested`); concretely, the single buy of
1 @ 50 with no price data anywhere yields marketValue 50 on every day
of the series after the anchor. -/
theorem missing_price_fallback :
    (∀ (l1 l2 : List (String × AssetState)) (s : String) (a : AssetState)
      (getP : String → Option ℚ), 0 < a.quantity → getP s = none →
      dayMarketValue (l1 ++ (s, a) :: l2) getP = dayMarketValue (l1 ++ l2) getP + a.invested) ∧
    (calculateHistory txsOneBuy noHist noPrices 19369).map
      (fun pts => pts.map (fun p => p.marketValue)) = some [0, 50, 50, 50] := by
  constructor
  · intro l1 l2 s a getP hq hnone
    simp only [dayMarketValue, List.map_append, List.map_cons, List.sum_append, List.sum_cons]
    simp only [assetDayContribution, hnone, hq, if_pos]
    ring
  · decide

/-- Witness for the fallback rule of `missing_price_fallback`: an asset
held with quantity 1 and invested 50, with no price entry, contributes
exactly 50. -/
theorem missing_price_fallback_witness :
    (0 : ℚ) < (⟨1, 50⟩ : AssetState).quantity ∧
    noPrices "X" = none ∧
    dayMarketValue [("X", ⟨1, 50⟩)] noPrices =
      dayMarketValue [] noPrices + (⟨1, 50⟩ : AssetState).invested :=
  ⟨by norm_num, rfl, missing_price_fallback.1 [] [] "X" ⟨1, 50⟩ noPrices (by norm_num) rfl⟩

/-- C10: the history of an empty transaction list is the empty list (no
synthetic anchor point is produced), and likewise `calculateAssetHistory`
for a symbol with no matching transactions. -/
theorem empty_ledger_empty_history (hist : HistoricalPrices) (crypto : CryptoData)
    (today : Int) :
    calculatePortfolioHistory [] hist crypto today = some [] ∧
    ∀ (sym : String) (txs : List Transaction), (∀ tx ∈ txs, tx.asset ≠ sym) →
      calculateAssetHistory sym txs hist crypto today = some [] := by
  constructor
  · rfl
  · intro sym txs h
    have hfil : txs.filter (fun tx => tx.asset = sym) = [] := by
      rw [List.filter_eq_nil_iff]
      intro tx htx
      simp [h tx htx]
    rw [calculateAssetHistory, hfil]
    rfl

/-- Witness for `empty_ledger_empty_history`: the empty ledger, and a
ledger holding only an asset-B transaction queried for asset A. -/
theorem empty_ledger_empty_history_witness :
    calculatePortfolioHistory [] noHist noPrices 0 = some [] ∧
    calculateAssetHistory "A" [txJan] noHist noPrices 0 = some [] :=
  ⟨(empty_ledger_empty_history noHist noPrices 0).1,
    (empty_ledger_empty_history noHist noPrices 0).2 "A" [txJan] (by decide)⟩

lemma dateLe_trans : ∀ a b c : Transaction, dateLe a b = true → dateLe b c = true →
    dateLe a c = true := by
  intro a b c hab hbc
  unfold dateLe at hab hbc ⊢
  rcases ha : jsDateDay a.date with _ | x
  · rfl
  · rcases hb : jsDateDay b.date with _ | y
    · rw [ha, hb] at hab
      exact absurd hab (by simp)
    · rcases hc : jsDateDay c.date with _ | z
      · rw [hb, hc] at hbc
        exact absurd hbc (by simp)
      · rw [ha, hb] at hab
        rw [hb, hc] at hbc
        simp only [decide_eq_true_eq] at hab hbc ⊢
        exact le_trans hab hbc

lemma dateLe_total : ∀ a b : Transaction, (dateLe a b || dateLe b a) = true := by
  intro a b
  unfold dateLe
  rcases ha : jsDateDay a.date with _ | x
  · rfl
  · rcases hb : jsDateDay b.date with _ | y
    · rfl
    · simp only [Bool.or_eq_true, decide_eq_true_eq]
      exact le_total x y

lemma sortByDate_sorted (txs : List Transaction) :
    List.Pairwise (fun a b => dateLe a b = true) (sortByDate txs) :=
  List.sorted_mergeSort dateLe_trans dateLe_total txs

lemma int_min?_iff {l : List Int} {e : Int} :
    l.min? = some e ↔ e ∈ l ∧ ∀ b ∈ l, e ≤ b :=
  have : Std.Antisymm fun x1 x2 : Int => x1 ≤ x2 := ⟨@fun _ _ h1 h2 => le_antisymm h1 h2⟩
  List.min?_eq_some_iff (fun a => le_refl a) (fun a b => min_choice a b)
    (fun _ _ _ => le_min_iff)

lemma historyFold_dates (txsOn : Int → List Transaction) (getP : Int → String → Option ℚ)
    (single : Bool) (days : List Int) :
    ∀ (st : List (String × AssetState) × ℚ) (pts : List PortfolioHistoryPoint),
    ((days.foldl (historyDayStep txsOn getP single) (st, pts)).2).map (fun p => p.date) =
      pts.map (fun p => p.date) ++ days := by
  induction days with
  | nil => intro st pts; simp
  | cons d ds ih =>
    intro st pts
    rw [List.foldl_cons]
    have hstep : historyDayStep txsOn getP single (st, pts) d =
        ((txsOn d).foldl historyTxStep st,
         pts ++ [⟨d, ((txsOn d).foldl historyTxStep st).2,
           dayMarketValue ((txsOn d).foldl historyTxStep st).1 (getP d),
           dayPricePoint ((txsOn d).foldl historyTxStep st).1 (getP d) single⟩]) := rfl
    rw [hstep, ih]
    simp

lemma dayRangeI_cons (a b : Int) (h : a ≤ b) : dayRangeI a b = a :: dayRangeI (a + 1) b := by
  have h1 : (b + 1 - a).toNat = (b + 1 - (a + 1)).toNat + 1 := by omega
  rw [dayRangeI, h1, List.range_succ_eq_map]
  simp only [List.map_cons, List.map_map, dayRangeI, Nat.cast_zero, add_zero]
  congr 1
  apply List.map_congr_left
  intro i _
  simp only [Function.comp_apply, Nat.succ_eq_add_one]
  push_cast
  ring

lemma calculateHistory_cons_eq (txs : List Transaction) (hist : HistoricalPrices)
    (crypto : CryptoData) (today : Int) (t0 : Transaction) (rest : List Transaction)
    (d0 : Int) (hs : sortByDate txs = t0 :: rest) (hd0 : jsDateDay t0.date = some d0) :
    calculateHistory txs hist crypto today =
      some (⟨d0 - 1, 0, 0, none⟩ ::
        ((dayRangeI d0 today).foldl
          (historyDayStep
            (fun d => (t0 :: rest).filter (fun tx => jsDateDay tx.date == some d))
            (historyGetPrice hist crypto today)
            ((txs.map (fun tx => tx.asset)).dedup.length == 1))
          (([], 0), [])).2) := by
  unfold calculateHistory
  rw [hs]
  simp only [hd0]

/-- C7 (amended): for a non-empty ledger of parseable dates whose
earliest transaction day is at most the day after today, the portfolio
history has exactly one point per calendar day from (earliest day − 1)
through today inclusive, in ascending order with no gaps or duplicates,
and its first point is the synthetic anchor with investedValue 0 and
marketValue 0. -/
theorem history_day_grid (txs : List Transaction) (hist : HistoricalPrices)
    (crypto : CryptoData) (today : Int) (e : Int)
    (hvalid : ∀ tx ∈ txs, (jsDateDay tx.date).isSome = true)
    (he : earliestTxDay txs = some e) (hle : e ≤ today + 1) :
    ∃ pts, calculatePortfolioHistory txs hist crypto today = some pts ∧
      pts.map (fun p => p.date) = dayRangeI (e - 1) today ∧
      pts.head? = some ⟨e - 1, 0, 0, none⟩ := by
  have hperm : (sortByDate txs).Perm txs := List.mergeSort_perm txs dateLe
  obtain ⟨hemem, helb⟩ := int_min?_iff.mp he
  rcases hs : sortByDate txs with _ | ⟨t0, rest⟩
  · exfalso
    have hnil : txs = [] := by
      have hlen := hperm.length_eq
      rw [hs] at hlen
      exact List.eq_nil_of_length_eq_zero hlen.symm
    rw [hnil] at he
    simp [earliestTxDay] at he
  · have ht0 : t0 ∈ txs := by
      apply hperm.mem_iff.mp
      rw [hs]
      exact List.mem_cons_self t0 rest
    obtain ⟨d0, hd0⟩ := Option.isSome_iff_exists.mp (hvalid t0 ht0)
    have hed0 : e ≤ d0 :=
      helb d0 (List.mem_filterMap.mpr ⟨t0, ht0, hd0⟩)
    obtain ⟨te, hte, htede⟩ := List.mem_filterMap.mp hemem
    have htes : te ∈ t0 :: rest := by
      rw [← hs]
      exact hperm.mem_iff.mpr hte
    have hd0e : d0 ≤ e := by
      rcases List.mem_cons.mp htes with h1 | h1
      · rw [h1, hd0] at htede
        exact le_of_eq (Option.some_injective _ htede)
      · have hpw := sortByDate_sorted txs
        rw [hs] at hpw
        have hlt := (List.pairwise_cons.mp hpw).1 te h1
        unfold dateLe at hlt
        rw [hd0, htede] at hlt
        simpa using hlt
    have hde : d0 = e := le_antisymm hd0e hed0
    subst hde
    rw [calculatePortfolioHistory, calculateHistory_cons_eq txs hist crypto today t0 rest d0
      hs hd0]
    refine ⟨_, rfl, ?_, rfl⟩
    rw [List.map_cons, historyFold_dates]
    have hgrid : dayRangeI (d0 - 1) today = (d0 - 1) :: dayRangeI (d0 - 1 + 1) today :=
      dayRangeI_cons (d0 - 1) today (by omega)
    have : d0 - 1 + 1 = d0 := by ring
    rw [hgrid, this]
    simp

/-- C7 counterexample: with a single transaction dated 2023-01-10
(civil day 19367) and today = 2023-01-01 (civil day 19358), the claimed
grid from (earliest − 1) through today is empty, yet the function still
returns the synthetic anchor point at day 19366 — the claim as stated
(one point per day of that grid, for every non-empty ledger) is false. -/
theorem history_day_grid_counterexample :
    earliestTxDay txsOneBuy = some 19367 ∧
    ((calculatePortfolioHistory txsOneBuy noHist noPrices 19358).getD []).map
      (fun p => p.date) = [19366] ∧
    dayRangeI (19367 - 1) 19358 = [] ∧
    ([19366] : List Int) ≠ [] := by decide

/-- Witness for `history_day_grid`: the single 2023-01-10 buy with
today = 2023-01-12 produces the grid of days 19366..19369. -/
theorem history_day_grid_witness :
    txsOneBuy.all (fun tx => (jsDateDay tx.date).isSome) = true ∧
    earliestTxDay txsOneBuy = some 19367 ∧
    (19367 : Int) ≤ 19369 + 1 ∧
    ((calculatePortfolioHistory txsOneBuy noHist noPrices 19369).getD []).map
      (fun p => p.date) = dayRangeI (19367 - 1) 19369 := by
  refine ⟨by decide, by decide, by decide, ?_⟩
  obtain ⟨pts, h1, h2, -⟩ := history_day_grid txsOneBuy noHist noPrices 19369 19367
    (by decide) (by decide) (by decide)
  rw [h1]
  simpa using h2
